import Mathlib

/-!
Verification of the `safe-network-signature-aggregator` proof module
(`src/proof.rs`) against its specification.

The module is a thin layer over the `threshold_crypto` BLS library.  We
shallowly embed both the module and the algebra of the underlying scheme:

* The groups `G1`/`G2` of BLS12-381 are cyclic of prime order `r`, so a
  group element is represented faithfully by its discrete logarithm with
  respect to a generator — an element of `ZMod r`.
* The hash-to-`G2` function is modelled symbolically and injectively: the
  signature `H(m)^x` is represented by the pair `(m, x)`.  This is the
  standard symbolic idealisation (hash collisions and accidental
  discrete-log coincidences across distinct hash points are excluded,
  exactly the events whose probability cryptography assumes negligible).
* Under this representation the pairing equation
  `e(g, sig) = e(pk, H(m))` of `PublicKey::verify` holds iff the
  signature's hash base is `m` and its exponent equals the key's
  discrete log.
-/

namespace SigAgg

/-- Order of the BLS12-381 scalar field (the prime group order used by
`threshold_crypto`). -/
def blsR : Nat := 52435875175126190479447740508185965837690552500527637822603658699938581184513

instance : NeZero blsR := ⟨by decide⟩

/-- Scalar field `Fr` of the scheme. -/
abbrev Fr := ZMod blsR

/-- A payload is an arbitrary byte sequence (`&[u8]` in the source). -/
abbrev Payload := List Nat

/-- Model of `threshold_crypto::PublicKey`: a `G1` element `g₁ ^ x`,
represented by its discrete log `x` (faithful: `G1` is cyclic of prime
order `blsR`). -/
structure PublicKey where
  dlog : Fr
deriving DecidableEq

/-- Model of `threshold_crypto::Signature`: a `G2` element `H(base) ^ exp`
in the symbolic injective-hash model. -/
structure Signature where
  base : Payload
  exp : Fr
deriving DecidableEq

/-- Model of `threshold_crypto::SecretKey`: a scalar. -/
structure SecretKey where
  x : Fr
deriving DecidableEq

/-- `SecretKey::sign`: BLS signing, `sign(x, m) = H(m)^x`. -/
def SecretKey.sign (sk : SecretKey) (payload : Payload) : Signature :=
  ⟨payload, sk.x⟩

/-- `SecretKey::public_key`: `g₁ ^ x`. -/
def SecretKey.public_key (sk : SecretKey) : PublicKey :=
  ⟨sk.x⟩

/-- `threshold_crypto::PublicKey::verify`: the pairing check
`e(g₁, sig) = e(pk, H(m))`, which in the prime-order symbolic model holds
iff `sig = H(m) ^ dlog pk`. -/
def PublicKey.verify (pk : PublicKey) (sig : Signature) (payload : Payload) : Bool :=
  decide (sig.base = payload ∧ sig.exp = pk.dlog)

/-- `threshold_crypto::SignatureShare` is a newtype over `Signature`. -/
abbrev SignatureShare := Signature

/-- `threshold_crypto::SecretKeyShare` is a newtype over `SecretKey`. -/
structure SecretKeyShare where
  sk : Fr
deriving DecidableEq

/-- `SecretKeyShare::sign`: identical to `SecretKey::sign`. -/
def SecretKeyShare.sign (s : SecretKeyShare) (payload : Payload) : SignatureShare :=
  ⟨payload, s.sk⟩

/-- `Poly::evaluate` / `Commitment::evaluate` of `threshold_crypto`:
Horner evaluation, `0` on the empty coefficient list. -/
def polyEval (coeffs : List Fr) (x : Fr) : Fr :=
  coeffs.foldr (fun c acc => c + x * acc) 0

/-- Model of `threshold_crypto::PublicKeySet`: the commitment
`(g₁^{a₀}, …, g₁^{a_t})` to the secret polynomial, represented by the
discrete logs `a₀ … a_t` of its coefficients. -/
structure PublicKeySet where
  coeffs : List Fr
deriving DecidableEq

/-- `PublicKeySet::public_key`: the zeroth commitment coefficient `g₁^{a₀}`. -/
def PublicKeySet.public_key (pks : PublicKeySet) : PublicKey :=
  ⟨pks.coeffs.headD 0⟩

/-- `PublicKeySet::public_key_share(i)`: evaluates the commitment at
`into_fr_plus_1 i = i + 1`; total for every index. -/
def PublicKeySet.public_key_share (pks : PublicKeySet) (i : Nat) : PublicKey :=
  ⟨polyEval pks.coeffs ((i : Fr) + 1)⟩

/-- The secret-key share belonging to position `i` of a key set whose
commitment is `pks`: the secret polynomial evaluated at `i + 1`
(`SecretKeySet::secret_key_share`). -/
def PublicKeySet.matching_secret_share (pks : PublicKeySet) (i : Nat) : SecretKeyShare :=
  ⟨polyEval pks.coeffs ((i : Fr) + 1)⟩

/-! ## The `proof.rs` module itself -/

/-- `Proof` (src/proof.rs lines 15–21): a BLS public key together with a
BLS signature. -/
structure Proof where
  public_key : PublicKey
  signature : Signature
deriving DecidableEq

/-- `Proof::verify` (src/proof.rs lines 25–27):
`self.public_key.verify(&self.signature, payload)`. -/
def Proof.verify (p : Proof) (payload : Payload) : Bool :=
  p.public_key.verify p.signature payload

/-- `ProofShare` (src/proof.rs lines 31–39). -/
structure ProofShare where
  public_key_set : PublicKeySet
  index : Nat
  signature_share : SignatureShare
deriving DecidableEq

/-- `ProofShare::new` (src/proof.rs lines 43–54): signs the payload with
the secret key share and copies the other arguments. -/
def ProofShare.new (public_key_set : PublicKeySet) (index : Nat)
    (secret_key_share : SecretKeyShare) (payload : Payload) : ProofShare :=
  ⟨public_key_set, index, secret_key_share.sign payload⟩

/-- `ProofShare::verify` (src/proof.rs lines 57–61):
`self.public_key_set.public_key_share(self.index).verify(&self.signature_share, payload)`. -/
def ProofShare.verify (ps : ProofShare) (payload : Payload) : Bool :=
  (ps.public_key_set.public_key_share ps.index).verify ps.signature_share payload

example : (Proof.mk ⟨5⟩ ⟨[104, 101], 5⟩).verify [104, 101] = true := by decide

example : (ProofShare.new ⟨[3, 5]⟩ 2 ⟨18⟩ [1, 2]).verify [1, 2] = true := by decide

example : (ProofShare.new ⟨[3, 5]⟩ 2 ⟨17⟩ [1, 2]).verify [1, 2] = false := by decide

/-! ## Serialization

Both structs derive `Serialize`/`Deserialize`; `serde` derives encode the
fields in declaration order.  We model the resulting stream as a byte list:
fixed-width little-endian words for `usize`/field elements (group elements
serialize as fixed-size point encodings, faithfully represented by their
discrete log), and a length-prefixed byte run for the symbolic hash base of
a signature. -/

/-- `k`-byte little-endian encoding of `n`. -/
def natToBytesLE : Nat → Nat → List Nat
  | 0, _ => []
  | k + 1, n => n % 256 :: natToBytesLE k (n / 256)

/-- Little-endian byte-list decoding. -/
def bytesToNatLE : List Nat → Nat
  | [] => 0
  | b :: bs => b + 256 * bytesToNatLE bs

/-- Reads `k` bytes from the front of a stream. -/
def readBytes (k : Nat) (s : List Nat) : Option (List Nat × List Nat) :=
  if k ≤ s.length then some (s.take k, s.drop k) else none

/-- `Proof`/`ProofShare` field streams: 8-byte `u64` word. -/
def encodeNat8 (n : Nat) : List Nat := natToBytesLE 8 n

def decodeNat8 (s : List Nat) : Option (Nat × List Nat) :=
  match readBytes 8 s with
  | some (bs, rest) => some (bytesToNatLE bs, rest)
  | none => none

/-- 32-byte encoding of a scalar (canonical, `val < blsR`). -/
def encodeFr (x : Fr) : List Nat := natToBytesLE 32 x.val

def decodeFr (s : List Nat) : Option (Fr × List Nat) :=
  match readBytes 32 s with
  | some (bs, rest) => some (((bytesToNatLE bs : Nat) : Fr), rest)
  | none => none

def encodeFrList : List Fr → List Nat
  | [] => []
  | c :: cs => encodeFr c ++ encodeFrList cs

def decodeFrList : Nat → List Nat → Option (List Fr × List Nat)
  | 0, s => some ([], s)
  | k + 1, s =>
    match decodeFr s with
    | some (x, s1) =>
      match decodeFrList k s1 with
      | some (xs, s2) => some (x :: xs, s2)
      | none => none
    | none => none

/-- Length-prefixed raw byte run (the symbolic hash base of a signature). -/
def encodePayload (p : Payload) : List Nat := encodeNat8 p.length ++ p

def decodePayload (s : List Nat) : Option (Payload × List Nat) :=
  match decodeNat8 s with
  | some (len, s1) =>
    match readBytes len s1 with
    | some (bs, rest) => some (bs, rest)
    | none => none
  | none => none

def encodePublicKey (pk : PublicKey) : List Nat := encodeFr pk.dlog

def decodePublicKey (s : List Nat) : Option (PublicKey × List Nat) :=
  match decodeFr s with
  | some (x, rest) => some (⟨x⟩, rest)
  | none => none

def encodeSignature (sig : Signature) : List Nat :=
  encodePayload sig.base ++ encodeFr sig.exp

def decodeSignature (s : List Nat) : Option (Signature × List Nat) :=
  match decodePayload s with
  | some (base, s1) =>
    match decodeFr s1 with
    | some (exp, rest) => some (⟨base, exp⟩, rest)
    | none => none
  | none => none

/-- Commitment coefficients, with a `u64` length prefix as for `Vec`. -/
def encodePublicKeySet (pks : PublicKeySet) : List Nat :=
  encodeNat8 pks.coeffs.length ++ encodeFrList pks.coeffs

def decodePublicKeySet (s : List Nat) : Option (PublicKeySet × List Nat) :=
  match decodeNat8 s with
  | some (len, s1) =>
    match decodeFrList len s1 with
    | some (cs, rest) => some (⟨cs⟩, rest)
    | none => none
  | none => none

/-- Derived `Serialize` for `Proof`: `public_key` then `signature`. -/
def encodeProof (p : Proof) : List Nat :=
  encodePublicKey p.public_key ++ encodeSignature p.signature

def decodeProof (s : List Nat) : Option (Proof × List Nat) :=
  match decodePublicKey s with
  | some (pk, s1) =>
    match decodeSignature s1 with
    | some (sig, rest) => some (⟨pk, sig⟩, rest)
    | none => none
  | none => none

/-- Derived `Serialize` for `ProofShare`: `public_key_set`, `index`,
`signature_share`, in declaration order. -/
def encodeProofShare (ps : ProofShare) : List Nat :=
  encodePublicKeySet ps.public_key_set ++ encodeNat8 ps.index
    ++ encodeSignature ps.signature_share

def decodeProofShare (s : List Nat) : Option (ProofShare × List Nat) :=
  match decodePublicKeySet s with
  | some (pks, s1) =>
    match decodeNat8 s1 with
    | some (i, s2) =>
      match decodeSignature s2 with
      | some (sig, rest) => some (⟨pks, i, sig⟩, rest)
      | none => none
    | none => none
  | none => none

/-- Derived `Hash` feeds every field's bytes to the hasher, in declaration
order; we model the hash input stream itself. -/
def hashProof (p : Proof) : List Nat := encodeProof p

/-- Derived `Hash` for `ProofShare`: all three fields. -/
def hashProofShare (ps : ProofShare) : List Nat := encodeProofShare ps

/-! ## Debug rendering

Rust `Debug` output is a character stream; we model it as a byte list.
The `Debug` rendering that `threshold_crypto` gives a public key or a
signature is the hex of the underlying point's canonical byte encoding,
which we represent by that encoding itself. -/

/-- Bytes of a literal format-string fragment. -/
def strBytes (s : String) : List Nat := s.toList.map Char.toNat

/-- The `Debug` impl of `threshold_crypto::PublicKey` prints only the first
10 hex characters (5 bytes) of the point's serialization
(`write!(f, "PublicKey(\x7b:0.10\x7d)", HexFmt(uncomp))`): a fixed lossy
digest of the group element, modelled as the first 5 bytes of the
element's canonical encoding. -/
def fmtPublicKeyDebug (pk : PublicKey) : List Nat := (encodeFr pk.dlog).take 5

/-- Likewise the `Debug` impl of `threshold_crypto::Signature` prints a
10-hex-char truncation of the point's serialization, modelled as the first
5 bytes of the element's canonical encoding. -/
def fmtSignatureDebug (sig : Signature) : List Nat := (encodeFr sig.exp).take 5

/-- The `#[derive(Debug)]` rendering of `Proof` (src/proof.rs line 15):
`Proof \x7b public_key: …, signature: … \x7d` with both fields rendered by
their own (truncating) `Debug` formatters. -/
def debugProofBytes (p : Proof) : List Nat :=
  strBytes "Proof \x7b public_key: " ++ fmtPublicKeyDebug p.public_key
    ++ strBytes ", signature: " ++ fmtSignatureDebug p.signature ++ strBytes " \x7d"

/-- The manual `Debug` impl for `ProofShare` (src/proof.rs lines 64–73):
`write!(formatter, "ProofShare \x7b public_key: {:?}, index: {}, .. \x7d",
self.public_key_set.public_key(), self.index)`. -/
def debugProofShareBytes (ps : ProofShare) : List Nat :=
  strBytes "ProofShare \x7b public_key: "
    ++ encodePublicKey ps.public_key_set.public_key
    ++ strBytes ", index: " ++ strBytes (toString ps.index) ++ strBytes ", .. \x7d"

/-! ## Round-trip lemmas for the codecs -/

theorem natToBytesLE_length (k n : Nat) : (natToBytesLE k n).length = k := by
  induction k generalizing n with
  | zero => rfl
  | succ k ih => simp [natToBytesLE, ih]

theorem bytesToNatLE_natToBytesLE (k n : Nat) (h : n < 256 ^ k) :
    bytesToNatLE (natToBytesLE k n) = n := by
  induction k generalizing n with
  | zero =>
    simp only [Nat.pow_zero, Nat.lt_one_iff] at h
    simp [natToBytesLE, bytesToNatLE, h]
  | succ k ih =>
    have hdiv : n / 256 < 256 ^ k := by
      rw [Nat.div_lt_iff_lt_mul (by norm_num)]
      calc n < 256 ^ (k + 1) := h
        _ = 256 ^ k * 256 := by rw [Nat.pow_succ]
    simp only [natToBytesLE, bytesToNatLE, ih _ hdiv]
    exact Nat.mod_add_div n 256

theorem readBytes_append (xs rest : List Nat) :
    readBytes xs.length (xs ++ rest) = some (xs, rest) := by
  simp [readBytes, List.length_append, Nat.le_add_right, List.take_left, List.drop_left]

theorem readBytes_fixed (k : Nat) (xs rest : List Nat) (h : xs.length = k) :
    readBytes k (xs ++ rest) = some (xs, rest) := by
  subst h; exact readBytes_append xs rest

theorem decodeNat8_append (n : Nat) (rest : List Nat) (h : n < 2 ^ 64) :
    decodeNat8 (encodeNat8 n ++ rest) = some (n, rest) := by
  have hval : n < 256 ^ 8 := by
    calc n < 2 ^ 64 := h
      _ = 256 ^ 8 := by norm_num
  simp only [decodeNat8, encodeNat8]
  rw [readBytes_fixed 8 (natToBytesLE 8 n) rest (natToBytesLE_length 8 n)]
  simp [bytesToNatLE_natToBytesLE 8 n hval]

theorem decodeFr_append (x : Fr) (rest : List Nat) :
    decodeFr (encodeFr x ++ rest) = some (x, rest) := by
  have hval : x.val < 256 ^ 32 := by
    calc x.val < blsR := ZMod.val_lt x
      _ < 256 ^ 32 := by decide
  simp only [decodeFr, encodeFr]
  rw [readBytes_fixed 32 (natToBytesLE 32 x.val) rest (natToBytesLE_length 32 _)]
  simp [bytesToNatLE_natToBytesLE 32 _ hval, ZMod.natCast_rightInverse x]

theorem decodeFrList_append (cs : List Fr) (rest : List Nat) :
    decodeFrList cs.length (encodeFrList cs ++ rest) = some (cs, rest) := by
  induction cs with
  | nil => rfl
  | cons c cs ih =>
    simp only [encodeFrList, List.length_cons, List.append_assoc, decodeFrList,
      decodeFr_append, ih]

theorem decodePayload_append (p : Payload) (rest : List Nat) (h : p.length < 2 ^ 64) :
    decodePayload (encodePayload p ++ rest) = some (p, rest) := by
  simp only [decodePayload, encodePayload, List.append_assoc,
    decodeNat8_append p.length (p ++ rest) h, readBytes_append]

theorem decodePublicKey_append (pk : PublicKey) (rest : List Nat) :
    decodePublicKey (encodePublicKey pk ++ rest) = some (pk, rest) := by
  simp only [decodePublicKey, encodePublicKey, decodeFr_append]

theorem decodeSignature_append (sig : Signature) (rest : List Nat)
    (h : sig.base.length < 2 ^ 64) :
    decodeSignature (encodeSignature sig ++ rest) = some (sig, rest) := by
  simp only [decodeSignature, encodeSignature, List.append_assoc,
    decodePayload_append sig.base _ h, decodeFr_append]

theorem decodePublicKeySet_append (pks : PublicKeySet) (rest : List Nat)
    (h : pks.coeffs.length < 2 ^ 64) :
    decodePublicKeySet (encodePublicKeySet pks ++ rest) = some (pks, rest) := by
  simp only [decodePublicKeySet, encodePublicKeySet, List.append_assoc,
    decodeNat8_append pks.coeffs.length _ h, decodeFrList_append]

theorem decodeProof_append (p : Proof) (rest : List Nat)
    (h : p.signature.base.length < 2 ^ 64) :
    decodeProof (encodeProof p ++ rest) = some (p, rest) := by
  simp only [decodeProof, encodeProof, List.append_assoc, decodePublicKey_append,
    decodeSignature_append p.signature rest h]

theorem decodeProofShare_append (ps : ProofShare) (rest : List Nat)
    (hidx : ps.index < 2 ^ 64) (hc : ps.public_key_set.coeffs.length < 2 ^ 64)
    (hb : ps.signature_share.base.length < 2 ^ 64) :
    decodeProofShare (encodeProofShare ps ++ rest) = some (ps, rest) := by
  simp only [decodeProofShare, encodeProofShare, List.append_assoc,
    decodePublicKeySet_append ps.public_key_set _ hc,
    decodeNat8_append ps.index _ hidx,
    decodeSignature_append ps.signature_share rest hb]

theorem natToBytesLE_take (j : Nat) : ∀ (k n : Nat), j ≤ k →
    (natToBytesLE k n).take j = natToBytesLE j (n % 256 ^ j) := by
  induction j with
  | zero => intro k n _; rfl
  | succ j ih =>
    intro k n hjk
    cases k with
    | zero => omega
    | succ k =>
      have h256 : (256 : Nat) ∣ 256 ^ (j + 1) := dvd_pow_self 256 (Nat.succ_ne_zero j)
      have hmod : n % 256 ^ (j + 1) % 256 = n % 256 := Nat.mod_mod_of_dvd n h256
      have hdiv : n % 256 ^ (j + 1) / 256 = n / 256 % 256 ^ j := by
        have : (256 : Nat) ^ (j + 1) = 256 * 256 ^ j := by
          rw [pow_succ, Nat.mul_comm]
        rw [this, Nat.mod_mul_right_div_self]
      simp only [natToBytesLE, List.take_succ_cons, hmod, hdiv,
        ih k (n / 256) (Nat.le_of_succ_le_succ hjk)]

/-! ## The claims -/

/-- C1: `Proof::verify(payload)` returns `true` iff the stored signature is a
cryptographically valid signature of exactly that payload under the stored
public key — in the symbolic BLS model, iff it is the signature that the
secret key matching `public_key` produces on exactly `payload`, with no
transformation of the payload. -/
theorem c1_proof_verify_iff_valid (p : Proof) (payload : Payload) :
    p.verify payload = true ↔
      ∃ sk : SecretKey, sk.public_key = p.public_key ∧ p.signature = sk.sign payload := by
  obtain ⟨pk, sig⟩ := p
  obtain ⟨d⟩ := pk
  obtain ⟨b, e⟩ := sig
  simp only [Proof.verify, PublicKey.verify, decide_eq_true_eq, SecretKey.sign,
    SecretKey.public_key, PublicKey.mk.injEq, Signature.mk.injEq]
  constructor
  · rintro ⟨hb, he⟩
    exact ⟨⟨d⟩, rfl, hb, he⟩
  · rintro ⟨⟨skx⟩, h1, h2, h3⟩
    exact ⟨h2, h3.trans h1⟩

/-- C2: `ProofShare::verify` derives the public-key share at `index` from
`public_key_set` and checks `signature_share` against it and the payload; a
mismatched payload or a signature share not matching the derived key (forged
share, or an index whose derived key differs) yields the boolean `false`,
never an error. -/
theorem c2_proofShare_verify_structure (ps : ProofShare) (payload : Payload) :
    ps.verify payload
        = (ps.public_key_set.public_key_share ps.index).verify ps.signature_share payload
      ∧ (ps.signature_share.base ≠ payload → ps.verify payload = false)
      ∧ (ps.signature_share.exp ≠ polyEval ps.public_key_set.coeffs ((ps.index : Fr) + 1) →
          ps.verify payload = false) := by
  refine ⟨rfl, fun h => ?_, fun h => ?_⟩ <;>
    simp [ProofShare.verify, PublicKey.verify, PublicKeySet.public_key_share, h]

/-- Witness for C2 at a concrete share and mismatched payload. -/
theorem c2_witness : (ProofShare.mk ⟨[3, 5]⟩ 1 ⟨[7], 9⟩).verify [8] = false :=
  (c2_proofShare_verify_structure ⟨⟨[3, 5]⟩, 1, ⟨[7], 9⟩⟩ [8]).2.1 (by decide)

/-- C3 counterexample: a share whose `index` (1000000) lies far outside what
its key set's two-coefficient commitment supports; deriving the public-key
share succeeds anyway (polynomial evaluation is total) and verification
returns the plain boolean `false` — no distinct `InvalidIndex` error
condition exists anywhere in `ProofShare::verify`. -/
theorem c3_counterexample :
    (ProofShare.mk ⟨[3, 5]⟩ 1000000 ⟨[7], 9⟩).verify [7] = false := by decide

/-- C3 (amended): share derivation is total for every index — an
out-of-range index is not an error; `verify` simply evaluates the committed
polynomial at `index + 1` and returns the boolean pairing check, and a share
signed with the secret evaluation at an arbitrary (even impossible) index
still verifies `true`, so callers cannot distinguish "impossible position"
from any other index. -/
theorem c3_no_invalid_index_error (pks : PublicKeySet) (i : Nat)
    (sig : SignatureShare) (payload : Payload) :
    ((ProofShare.mk pks i sig).verify payload
        = decide (sig.base = payload ∧ sig.exp = polyEval pks.coeffs ((i : Fr) + 1)))
      ∧ (ProofShare.new pks i (pks.matching_secret_share i) payload).verify payload
          = true := by
  refine ⟨rfl, ?_⟩
  simp [ProofShare.new, ProofShare.verify, PublicKey.verify,
    PublicKeySet.public_key_share, SecretKeyShare.sign, PublicKeySet.matching_secret_share]

/-- C4: construction/verification round-trip — a share built by
`ProofShare::new` with the secret key share belonging to `index` verifies
the same payload. -/
theorem c4_new_then_verify (pks : PublicKeySet) (i : Nat) (sks : SecretKeyShare)
    (payload : Payload) (h : sks = pks.matching_secret_share i) :
    (ProofShare.new pks i sks payload).verify payload = true := by
  subst h
  simp [ProofShare.new, ProofShare.verify, PublicKey.verify,
    PublicKeySet.public_key_share, SecretKeyShare.sign, PublicKeySet.matching_secret_share]

/-- Witness for C4 at a concrete key set, index and payload. -/
theorem c4_witness : (ProofShare.new ⟨[3, 5]⟩ 2 ⟨18⟩ [1, 2]).verify [1, 2] = true :=
  c4_new_then_verify ⟨[3, 5]⟩ 2 ⟨18⟩ [1, 2] (by decide)

/-- C5: a signature does not transfer across payloads — if a proof verifies
some payload, it fails on every different payload. -/
theorem c5_no_payload_transfer (p : Proof) (payload payload' : Payload)
    (hv : p.verify payload = true) (hne : payload' ≠ payload) :
    p.verify payload' = false := by
  simp only [Proof.verify, PublicKey.verify, decide_eq_true_eq] at hv
  simp only [Proof.verify, PublicKey.verify, decide_eq_false_iff_not]
  rintro ⟨hbase, -⟩
  exact hne (hbase.symm.trans hv.1)

/-- Witness for C5: the spec's concrete scenario — sign `"hello"`, then
`verify(b"goodbye")` is `false`. -/
theorem c5_witness :
    (Proof.mk ⟨5⟩ ⟨[104, 101, 108, 108, 111], 5⟩).verify
        [103, 111, 111, 100, 98, 121, 101] = false :=
  c5_no_payload_transfer ⟨⟨5⟩, ⟨[104, 101, 108, 108, 111], 5⟩⟩
    [104, 101, 108, 108, 111] [103, 111, 111, 100, 98, 121, 101] (by decide) (by decide)

/-- C6: `ProofShare::new` signs the payload with the secret key share and
copies `public_key_set` and `index` unchanged; it is total over all inputs
(in particular no bound-check of `index` — the statement quantifies over
every natural index) and always yields a fully-formed share. -/
theorem c6_new_fields (pks : PublicKeySet) (i : Nat) (sks : SecretKeyShare)
    (payload : Payload) :
    (ProofShare.new pks i sks payload).public_key_set = pks
      ∧ (ProofShare.new pks i sks payload).index = i
      ∧ (ProofShare.new pks i sks payload).signature_share = sks.sign payload :=
  ⟨rfl, rfl, rfl⟩

/-- C7: encoding round-trip for both types (decode ∘ encode = id, hence
equality and hashing are preserved across the round trip), and the encoding
is the concatenation of the fields' encodings in declaration order:
`public_key` then `signature` for `Proof`; `public_key_set`, `index`,
`signature_share` for `ProofShare`. -/
theorem c7_encoding_roundtrip (p : Proof) (ps : ProofShare)
    (h1 : p.signature.base.length < 2 ^ 64) (h2 : ps.index < 2 ^ 64)
    (h3 : ps.public_key_set.coeffs.length < 2 ^ 64)
    (h4 : ps.signature_share.base.length < 2 ^ 64) :
    decodeProof (encodeProof p) = some (p, [])
      ∧ decodeProofShare (encodeProofShare ps) = some (ps, [])
      ∧ encodeProof p = encodePublicKey p.public_key ++ encodeSignature p.signature
      ∧ encodeProofShare ps
          = encodePublicKeySet ps.public_key_set ++ encodeNat8 ps.index
              ++ encodeSignature ps.signature_share := by
  refine ⟨?_, ?_, rfl, rfl⟩
  · simpa using decodeProof_append p [] h1
  · simpa using decodeProofShare_append ps [] h2 h3 h4

/-- Witness for C7 at concrete instances of both types. -/
theorem c7_witness :
    decodeProof (encodeProof ⟨⟨5⟩, ⟨[1, 2], 5⟩⟩) = some (⟨⟨5⟩, ⟨[1, 2], 5⟩⟩, []) :=
  (c7_encoding_roundtrip ⟨⟨5⟩, ⟨[1, 2], 5⟩⟩ ⟨⟨[3, 5]⟩, 2, ⟨[1, 2], 18⟩⟩
    (by decide) (by decide) (by decide) (by decide)).1

/-- C8: the `Debug` rendering of `ProofShare` is a function of only the
derived group public key and the index (so the signature share and the
key-set commitment internals are omitted), while structural equality and
the hash stream still use all three fields. -/
theorem c8_debug_redaction_eq_hash :
    (∀ ps₁ ps₂ : ProofShare,
        ps₁.public_key_set.public_key = ps₂.public_key_set.public_key →
        ps₁.index = ps₂.index →
        debugProofShareBytes ps₁ = debugProofShareBytes ps₂)
      ∧ (∀ ps₁ ps₂ : ProofShare,
          ps₁ = ps₂ ↔
            ps₁.public_key_set = ps₂.public_key_set ∧ ps₁.index = ps₂.index
              ∧ ps₁.signature_share = ps₂.signature_share)
      ∧ (∀ ps₁ ps₂ : ProofShare,
          ps₁.index < 2 ^ 64 → ps₂.index < 2 ^ 64 →
          ps₁.public_key_set.coeffs.length < 2 ^ 64 →
          ps₂.public_key_set.coeffs.length < 2 ^ 64 →
          ps₁.signature_share.base.length < 2 ^ 64 →
          ps₂.signature_share.base.length < 2 ^ 64 →
          (hashProofShare ps₁ = hashProofShare ps₂ ↔ ps₁ = ps₂)) := by
  refine ⟨?_, ?_, ?_⟩
  · intro ps₁ ps₂ hpk hidx
    simp [debugProofShareBytes, hpk, hidx]
  · intro ps₁ ps₂
    cases ps₁; cases ps₂
    simp [ProofShare.mk.injEq]
  · intro ps₁ ps₂ h1 h2 h3 h4 h5 h6
    constructor
    · intro h
      have e1 := decodeProofShare_append ps₁ [] h1 h3 h5
      have e2 := decodeProofShare_append ps₂ [] h2 h4 h6
      rw [List.append_nil] at e1 e2
      have e3 : some (ps₁, ([] : List Nat)) = some (ps₂, ([] : List Nat)) := by
        rw [← e1, ← e2]
        exact congrArg decodeProofShare h
      simpa using e3
    · rintro rfl; rfl

/-- Witness for C8: two concrete shares agreeing on group key and index but
differing in their signature shares render identically, while the hash
stream still distinguishes a share from itself only trivially. -/
theorem c8_witness :
    debugProofShareBytes ⟨⟨[3, 5]⟩, 2, ⟨[1], 7⟩⟩
        = debugProofShareBytes ⟨⟨[3, 5]⟩, 2, ⟨[2], 8⟩⟩
      ∧ (hashProofShare ⟨⟨[3, 5]⟩, 2, ⟨[1], 7⟩⟩
            = hashProofShare ⟨⟨[3, 5]⟩, 2, ⟨[2], 8⟩⟩
          ↔ (⟨⟨[3, 5]⟩, 2, ⟨[1], 7⟩⟩ : ProofShare) = ⟨⟨[3, 5]⟩, 2, ⟨[2], 8⟩⟩) :=
  ⟨c8_debug_redaction_eq_hash.1 _ _ (by decide) rfl,
   c8_debug_redaction_eq_hash.2.2 _ _ (by decide) (by decide) (by decide) (by decide)
     (by decide) (by decide)⟩

/-- C9: verification of both types is deterministic — a pure function of
the stored fields and the payload, so structurally equal proofs and equal
payloads always give the same boolean. -/
theorem c9_verify_deterministic :
    (∀ (p₁ p₂ : Proof) (a b : Payload), p₁ = p₂ → a = b → p₁.verify a = p₂.verify b)
      ∧ (∀ (s₁ s₂ : ProofShare) (a b : Payload), s₁ = s₂ → a = b →
          s₁.verify a = s₂.verify b) := by
  constructor <;> rintro _ _ _ _ rfl rfl <;> rfl

/-- Witness for C9 at concrete proofs and payloads. -/
theorem c9_witness :
    (Proof.mk ⟨5⟩ ⟨[1], 5⟩).verify [1] = (Proof.mk ⟨5⟩ ⟨[1], 5⟩).verify [1] :=
  c9_verify_deterministic.1 _ _ _ _ rfl rfl

/-- C10 counterexample: two distinct `Proof`s — same public key, signatures
differing only above the first 40 bits (`5` versus `5 + 2^40`) — have
identical `Debug` renderings, so the derived rendering does not show the
complete signature bytes and does not expose all of the proof's
cryptographic material. -/
theorem c10_counterexample :
    debugProofBytes ⟨⟨5⟩, ⟨[1], 5⟩⟩ = debugProofBytes ⟨⟨5⟩, ⟨[1], 1099511627781⟩⟩
      ∧ (Proof.mk ⟨5⟩ ⟨[1], 5⟩) ≠ (Proof.mk ⟨5⟩ ⟨[1], 1099511627781⟩) := by
  constructor
  · decide
  · decide

/-- C10 (amended): the `Debug` rendering of `Proof` is the derived one —
`proof.rs` applies no redaction of its own, and both fields appear,
rendered by their own formatters — but those formatters print only a
truncated 10-hex-char (40-bit) abbreviation of each group element, so the
rendering is not injective: any two proofs agreeing on the printed prefix
render identically, and logging a `Proof` does not expose its complete
cryptographic material. -/
theorem c10_proof_debug_derived_truncated :
    (∀ p : Proof, debugProofBytes p
        = strBytes "Proof \x7b public_key: " ++ fmtPublicKeyDebug p.public_key
            ++ strBytes ", signature: " ++ fmtSignatureDebug p.signature
            ++ strBytes " \x7d")
      ∧ (∀ p₁ p₂ : Proof, p₁.public_key = p₂.public_key →
          p₁.signature.base = p₂.signature.base →
          p₁.signature.exp.val % 2 ^ 40 = p₂.signature.exp.val % 2 ^ 40 →
          debugProofBytes p₁ = debugProofBytes p₂)
      ∧ (∃ p₁ p₂ : Proof, p₁ ≠ p₂ ∧ debugProofBytes p₁ = debugProofBytes p₂) := by
  refine ⟨fun p => rfl, ?_, ?_⟩
  · intro p₁ p₂ hpk hbase hexp
    have h40 : (2 : Nat) ^ 40 = 256 ^ 5 := by norm_num
    have htr : fmtSignatureDebug p₁.signature = fmtSignatureDebug p₂.signature := by
      simp only [fmtSignatureDebug, encodeFr,
        natToBytesLE_take 5 32 _ (by norm_num), h40.symm, hexp]
    simp only [debugProofBytes, hpk, htr]
  · exact ⟨⟨⟨5⟩, ⟨[1], 5⟩⟩, ⟨⟨5⟩, ⟨[1], 1099511627781⟩⟩, by decide, by decide⟩

/-- Witness for the amended C10 at the concrete colliding pair. -/
theorem c10_witness :
    debugProofBytes ⟨⟨5⟩, ⟨[1], 5⟩⟩ = debugProofBytes ⟨⟨5⟩, ⟨[1], 1099511627781⟩⟩ :=
  c10_proof_debug_derived_truncated.2.1 ⟨⟨5⟩, ⟨[1], 5⟩⟩ ⟨⟨5⟩, ⟨[1], 1099511627781⟩⟩
    rfl rfl (by decide)

end SigAgg
